import Mathlib

/-!
Verification of the hegel metadata service (Go sources: `http/api.go` and the
two unnamed files of package `http`).

`http/api.go` contains two co-present versions of the v0 gin handler family:
a package-global-state version (first half of the file) and a
dependency-injected version (second half).  Both are embedded here; the
global-state versions carry the suffix `Global` because Lean forbids the name
collision that the Go file carries.

The `hardware` package is external to the sources; the record structures below
are transcribed from the field accesses the handlers perform
(`hardware.Metadata.Instance.Disks`, `.SSHKeys`, `.Hostname`, `.ID`,
the per-address fields `Address`, `Netmask`, `Gateway`, `AddressFamily` of
`.Network.Addresses`, the metadata-level `Userdata`, `Gateway`, `Interfaces`,
and the per-interface fields `MAC`, `Family`, `Address`, `Netmask`) and from
the jq filters of the EC2 path (`.metadata.instance.spot.termination_time`).
-/

namespace Hegel

/-- A disk descriptor (`hardware.K8sHardwareDisk`); its contents are only ever
re-serialized whole, so a single device field suffices for the embedding. -/
structure K8sHardwareDisk where
  device : String
deriving Repr, DecidableEq

/-- One entry of `Metadata.Instance.Network.Addresses`
(`hardware.K8sHardwareMetadataInstanceNetworkAddress`). -/
structure NetworkAddress where
  addressFamily : Nat
  address : String
  netmask : String
  gateway : String
  public : Bool
deriving Repr, DecidableEq

/-- Source: `Metadata.Instance.Network`. -/
structure InstanceNetwork where
  addresses : List NetworkAddress
deriving Repr, DecidableEq

/-- Spot info of the instance (`.metadata.instance.spot`, with its
`termination_time` field), used by the EC2 filters. -/
structure SpotInfo where
  terminationTime : String
deriving Repr, DecidableEq

/-- Source: `Metadata.Instance` with the fields the handlers and filters read. -/
structure InstanceMeta where
  id : String
  hostname : String
  disks : List K8sHardwareDisk
  sshKeys : List String
  network : InstanceNetwork
  spot : Option SpotInfo
deriving Repr, DecidableEq

/-- One entry of `Metadata.Interfaces` (`hardware.K8sNetworkInterface`). -/
structure K8sNetworkInterface where
  mac : String
  family : Nat
  address : String
  netmask : String
deriving Repr, DecidableEq

/-- Source: `K8sHardware.Metadata` (`instance` is a Lean keyword, so the field named
`Instance` in the Go struct is called `inst` here). -/
structure HardwareMetadata where
  userdata : Option String
  inst : InstanceMeta
  gateway : String
  interfaces : List K8sNetworkInterface
deriving Repr, DecidableEq

/-- The decoded instance record (`hardware.K8sHardware`). -/
structure K8sHardware where
  metadata : HardwareMetadata
deriving Repr, DecidableEq

/-- Outcome of the three-stage fetch pipeline in `getHardware`
(`client.ByIP`, `hw.Export()`, `json.Unmarshal`).  The client and the JSON
codec are external; each failure stage is represented abstractly by the
constructor naming the stage that failed. -/
inductive FetchOutcome where
  | lookupFailure
  | exportFailure
  | decodeFailure
  | success (hw : K8sHardware)
deriving Repr, DecidableEq

/-- Source: `getHardware` (`api.go`): every stage error is returned as a bare `error`
with the zero `K8sHardware`; the three failure kinds are not distinguished in
the returned value. -/
def getHardware : FetchOutcome → Except Unit K8sHardware
  | .success hw => .ok hw
  | _ => .error ()

/-- The body a gin handler writes: either accumulated `c.String` text, the
`null` JSON document of `c.JSON(status, nil)`, one serialized disk
(`c.JSON(http.StatusOK, disk)`), or the aggregated metadata object of the
root meta-data JSON branch. -/
inductive Body where
  | text (s : String)
  | jsonNull
  | jsonDisk (d : K8sHardwareDisk)
  | jsonMeta (interfaces : List K8sNetworkInterface) (disks : List K8sHardwareDisk)
      (sshKeys : List String) (hostname : String) (gateway : String)
deriving Repr, DecidableEq

/-- An HTTP response as observed on the wire: status code, body, and whether
the Content-Type is `application/json` (set by `c.JSON` / the explicit
`c.Header` call) rather than plain text. -/
structure HttpResponse where
  status : Nat
  body : Body
  isJson : Bool
deriving Repr, DecidableEq

/-- A handler run that may end in a Go runtime panic instead of a response. -/
inductive RunResult where
  | resp (r : HttpResponse)
  | panic
deriving Repr, DecidableEq

/-- Decimal value of a digit list (helper for `atoi?`). -/
def digitsVal (ds : List Char) : Nat :=
  ds.foldl (fun acc c => acc * 10 + (c.toNat - '0'.toNat)) 0

/-- Source: `strconv.Atoi`: optional sign, then one or more decimal digits, nothing
else; values outside the 64-bit signed range are range errors. -/
def atoi? (s : String) : Option Int :=
  let signed : Int × List Char :=
    match s.data with
    | '+' :: rest => (1, rest)
    | '-' :: rest => (-1, rest)
    | cs => (1, cs)
  match signed with
  | (sign, ds) =>
    if ds = [] then none
    else if ds.all (fun c => c.isDigit) then
      let v : Int := sign * (digitsVal ds : Nat)
      if v < -(2 ^ 63) ∨ (2 ^ 63) ≤ v then none else some v
    else none

/-- The body produced by the count-indexed listing loops
(`for i := 0; i < len(xs); i++` writing `fmt.Sprintln(i)` each step). -/
def indexLines (n : Nat) : String :=
  String.join ((List.range n).map (fun i => toString i ++ "\n"))

/-- The `validInterface` loop of the injected `macHandler`: the last interface
whose MAC equals the selector, if any. -/
def lastMatch (ifaces : List K8sNetworkInterface) (mac : String) : Option K8sNetworkInterface :=
  ifaces.foldl (fun acc itf => if itf.mac = mac then some itf else acc) none

/-! ### Dependency-injected v0 handlers (second half of `api.go`) -/

/-- Source: `userdataHandler` (injected version). -/
def userdataHandler (o : FetchOutcome) : HttpResponse :=
  match getHardware o with
  | .error _ => ⟨404, .jsonNull, true⟩
  | .ok hw =>
    match hw.metadata.userdata with
    | none => ⟨200, .text "", false⟩
    | some d => ⟨200, .text d, false⟩

/-- Source: `metadataHandler`: root meta-data listing with content negotiation.  The
`Accept` header values are scanned for an element equal to
`application/json`; the JSON branch fetches the record and serializes the
aggregate `metadataJSON` struct, the plain branch writes a fixed listing
without fetching anything. -/
def metadataHandler (o : FetchOutcome) (accept : List String) : HttpResponse :=
  let acceptJSON := accept.contains "application/json"
  if acceptJSON then
    match getHardware o with
    | .error _ => ⟨404, .jsonNull, true⟩
    | .ok hw =>
      ⟨200, .jsonMeta hw.metadata.interfaces hw.metadata.inst.disks
        hw.metadata.inst.sshKeys hw.metadata.inst.hostname hw.metadata.gateway, true⟩
  else ⟨200, .text "disks\nssh-public-keys\ngateway\nhostname\n:mac\n", false⟩

/-- The `omitempty` keys of the serialized `metadataJSON` object, in struct
field order: a slice field is omitted when empty, a string field when `""`. -/
def metadataJSONKeys (interfaces : List K8sNetworkInterface) (disks : List K8sHardwareDisk)
    (sshKeys : List String) (hostname : String) (gateway : String) : List String :=
  (if interfaces ≠ [] then ["interfaces"] else [])
    ++ (if disks ≠ [] then ["disks"] else [])
    ++ (if sshKeys ≠ [] then ["ssh_keys"] else [])
    ++ (if hostname ≠ "" then ["hostname"] else [])
    ++ (if gateway ≠ "" then ["gateway"] else [])

/-- Source: `diskHandler` (injected version): count-indexed listing of the disks. -/
def diskHandler (o : FetchOutcome) : HttpResponse :=
  match getHardware o with
  | .error _ => ⟨404, .jsonNull, true⟩
  | .ok hw => ⟨200, .text (indexLines hw.metadata.inst.disks.length), false⟩

/-- Source: `diskIndexHandler` (injected version): non-numeric index is 400; in-range
index returns the serialized disk; out-of-range (negative included) is 400. -/
def diskIndexHandler (o : FetchOutcome) (idx : String) : HttpResponse :=
  match getHardware o with
  | .error _ => ⟨404, .jsonNull, true⟩
  | .ok hw =>
    match atoi? idx with
    | none => ⟨400, .jsonNull, true⟩
    | some i =>
      let disks := hw.metadata.inst.disks
      if 0 ≤ i ∧ i < (disks.length : Int)
      then ⟨200, .jsonDisk (disks.getD i.toNat ⟨""⟩), true⟩
      else ⟨400, .jsonNull, true⟩

/-- Source: `sshHandler` (injected version): count-indexed listing of the SSH keys. -/
def sshHandler (o : FetchOutcome) : HttpResponse :=
  match getHardware o with
  | .error _ => ⟨404, .jsonNull, true⟩
  | .ok hw => ⟨200, .text (indexLines hw.metadata.inst.sshKeys.length), false⟩

/-- Source: `sshIndexHandler` (injected version); its failure branch uses
`c.String(400, "")` rather than `c.JSON`. -/
def sshIndexHandler (o : FetchOutcome) (idx : String) : HttpResponse :=
  match getHardware o with
  | .error _ => ⟨404, .jsonNull, true⟩
  | .ok hw =>
    match atoi? idx with
    | none => ⟨400, .jsonNull, true⟩
    | some i =>
      let keys := hw.metadata.inst.sshKeys
      if 0 ≤ i ∧ i < (keys.length : Int)
      then ⟨200, .text (keys.getD i.toNat ""), false⟩
      else ⟨400, .text "", false⟩

/-- Source: `hostnameHandler` (injected version). -/
def hostnameHandler (o : FetchOutcome) : HttpResponse :=
  match getHardware o with
  | .error _ => ⟨404, .jsonNull, true⟩
  | .ok hw => ⟨200, .text hw.metadata.inst.hostname, false⟩

/-- Source: `gatewayHandler` (injected version): reads the top-level
`Metadata.Gateway` field. -/
def gatewayHandler (o : FetchOutcome) : HttpResponse :=
  match getHardware o with
  | .error _ => ⟨404, .jsonNull, true⟩
  | .ok hw => ⟨200, .text hw.metadata.gateway, false⟩

/-- Source: `macHandler` (injected version): matches the selector against the
interface MACs; no match is 204, a match returns the fixed two-line listing. -/
def macHandler (o : FetchOutcome) (mac : String) : HttpResponse :=
  match getHardware o with
  | .error _ => ⟨404, .jsonNull, true⟩
  | .ok hw =>
    match lastMatch hw.metadata.interfaces mac with
    | none => ⟨204, .text "", false⟩
    | some _ => ⟨200, .text "ipv4\nipv6\n", false⟩

/-- The `validInterfaces` filter shared by the injected family handlers. -/
def validInterfaces (hw : K8sHardware) (mac : String) : List K8sNetworkInterface :=
  hw.metadata.interfaces.filter (fun itf => itf.mac == mac)

/-- Source: `ipv4Handler` (injected version): 204 when the MAC matches no interface or
no matching interface has family 4, else the count-indexed listing. -/
def ipv4Handler (o : FetchOutcome) (mac : String) : HttpResponse :=
  match getHardware o with
  | .error _ => ⟨404, .jsonNull, true⟩
  | .ok hw =>
    let valid := validInterfaces hw mac
    if valid = [] then ⟨204, .text "", false⟩
    else
      let k := (valid.filter (fun v => v.family == 4)).length
      if k = 0 then ⟨204, .text "", false⟩
      else ⟨200, .text (indexLines k), false⟩

/-- Source: `ipv4IndexHandler` (injected version). -/
def ipv4IndexHandler (o : FetchOutcome) (mac : String) : HttpResponse :=
  match getHardware o with
  | .error _ => ⟨404, .jsonNull, true⟩
  | .ok hw =>
    let valid := validInterfaces hw mac
    if valid = [] then ⟨204, .text "", false⟩
    else
      let ipv4 := valid.filter (fun v => v.family == 4)
      if ipv4 = [] then ⟨204, .text "", false⟩
      else ⟨200, .text "ip\nnetmask", false⟩

/-- Source: `ipv4IPHandler` (injected version). -/
def ipv4IPHandler (o : FetchOutcome) (mac : String) (idx : String) : HttpResponse :=
  match getHardware o with
  | .error _ => ⟨404, .jsonNull, true⟩
  | .ok hw =>
    let valid := validInterfaces hw mac
    if valid = [] then ⟨204, .text "", false⟩
    else
      match atoi? idx with
      | none => ⟨400, .jsonNull, true⟩
      | some i =>
        let ipv4 := valid.filter (fun v => v.family == 4)
        if ipv4 = [] ∨ i < 0 ∨ (ipv4.length : Int) ≤ i then ⟨204, .text "", false⟩
        else ⟨200, .text ((ipv4.getD i.toNat ⟨"", 0, "", ""⟩).address), false⟩

/-- Source: `ipv4NetmaskHandler` (injected version). -/
def ipv4NetmaskHandler (o : FetchOutcome) (mac : String) (idx : String) : HttpResponse :=
  match getHardware o with
  | .error _ => ⟨404, .jsonNull, true⟩
  | .ok hw =>
    let valid := validInterfaces hw mac
    if valid = [] then ⟨204, .text "", false⟩
    else
      match atoi? idx with
      | none => ⟨400, .jsonNull, true⟩
      | some i =>
        let ipv4 := valid.filter (fun v => v.family == 4)
        if ipv4 = [] ∨ i < 0 ∨ (ipv4.length : Int) ≤ i then ⟨204, .text "", false⟩
        else ⟨200, .text ((ipv4.getD i.toNat ⟨"", 0, "", ""⟩).netmask), false⟩

/-- Source: `ipv6Handler` (injected version). -/
def ipv6Handler (o : FetchOutcome) (mac : String) : HttpResponse :=
  match getHardware o with
  | .error _ => ⟨404, .jsonNull, true⟩
  | .ok hw =>
    let valid := validInterfaces hw mac
    if valid = [] then ⟨204, .text "", false⟩
    else
      let k := (valid.filter (fun v => v.family == 6)).length
      if k = 0 then ⟨204, .text "", false⟩
      else ⟨200, .text (indexLines k), false⟩

/-- Source: `ipv6IndexHandler` (injected version). -/
def ipv6IndexHandler (o : FetchOutcome) (mac : String) : HttpResponse :=
  match getHardware o with
  | .error _ => ⟨404, .jsonNull, true⟩
  | .ok hw =>
    let valid := validInterfaces hw mac
    if valid = [] then ⟨204, .text "", false⟩
    else
      let ipv6 := valid.filter (fun v => v.family == 6)
      if ipv6 = [] then ⟨204, .text "", false⟩
      else ⟨200, .text "ip\nnetmask", false⟩

/-- Source: `ipv6IPHandler` (injected version). -/
def ipv6IPHandler (o : FetchOutcome) (mac : String) (idx : String) : HttpResponse :=
  match getHardware o with
  | .error _ => ⟨404, .jsonNull, true⟩
  | .ok hw =>
    let valid := validInterfaces hw mac
    if valid = [] then ⟨204, .text "", false⟩
    else
      match atoi? idx with
      | none => ⟨400, .jsonNull, true⟩
      | some i =>
        let ipv6 := valid.filter (fun v => v.family == 6)
        if ipv6 = [] ∨ i < 0 ∨ (ipv6.length : Int) ≤ i then ⟨204, .text "", false⟩
        else ⟨200, .text ((ipv6.getD i.toNat ⟨"", 0, "", ""⟩).address), false⟩

/-- Source: `ipv6NetmaskHandler` (injected version). -/
def ipv6NetmaskHandler (o : FetchOutcome) (mac : String) (idx : String) : HttpResponse :=
  match getHardware o with
  | .error _ => ⟨404, .jsonNull, true⟩
  | .ok hw =>
    let valid := validInterfaces hw mac
    if valid = [] then ⟨204, .text "", false⟩
    else
      match atoi? idx with
      | none => ⟨400, .jsonNull, true⟩
      | some i =>
        let ipv6 := valid.filter (fun v => v.family == 6)
        if ipv6 = [] ∨ i < 0 ∨ (ipv6.length : Int) ≤ i then ⟨204, .text "", false⟩
        else ⟨200, .text ((ipv6.getD i.toNat ⟨"", 0, "", ""⟩).netmask), false⟩

/-- The route table registered by the injected `v0HegelMetadataHandler`
(path parameters carried as constructor arguments). -/
inductive V0Route where
  | userData
  | metaRoot
  | disks
  | diskIdx (idx : String)
  | ssh
  | sshIdx (idx : String)
  | hostname
  | gateway
  | mac (m : String)
  | macIpv4 (m : String)
  | macIpv4Idx (m idx : String)
  | macIpv4IP (m idx : String)
  | macIpv4Netmask (m idx : String)
  | macIpv6 (m : String)
  | macIpv6Idx (m idx : String)
  | macIpv6IP (m idx : String)
  | macIpv6Netmask (m idx : String)
deriving Repr, DecidableEq

/-- Dispatch of a v0 request to the handler the injected
`v0HegelMetadataHandler` registers for its route; only the root meta-data
handler receives the `Accept` header values, matching which handlers read
them in the source. -/
def v0Dispatch (rt : V0Route) (accept : List String) (o : FetchOutcome) : HttpResponse :=
  match rt with
  | .userData => userdataHandler o
  | .metaRoot => metadataHandler o accept
  | .disks => diskHandler o
  | .diskIdx idx => diskIndexHandler o idx
  | .ssh => sshHandler o
  | .sshIdx idx => sshIndexHandler o idx
  | .hostname => hostnameHandler o
  | .gateway => gatewayHandler o
  | .mac m => macHandler o m
  | .macIpv4 m => ipv4Handler o m
  | .macIpv4Idx m _ => ipv4IndexHandler o m
  | .macIpv4IP m idx => ipv4IPHandler o m idx
  | .macIpv4Netmask m idx => ipv4NetmaskHandler o m idx
  | .macIpv6 m => ipv6Handler o m
  | .macIpv6Idx m _ => ipv6IndexHandler o m
  | .macIpv6IP m idx => ipv6IPHandler o m idx
  | .macIpv6Netmask m idx => ipv6NetmaskHandler o m idx

/-! ### Package-global-state v0 handlers (first half of `api.go`)

These carry the suffix `Global`; in the Go file they are the first of the two
same-named definitions. -/

/-- Source: `gatewayHandler` (global-state version): reads
`Metadata.Instance.Network.Addresses[0].Gateway` with no bounds check (the
source line carries the comment `//! err check`); on an empty address list
the Go slice index panics at runtime. -/
def gatewayHandlerGlobal (o : FetchOutcome) : RunResult :=
  match getHardware o with
  | .error _ => .resp ⟨404, .jsonNull, true⟩
  | .ok hw =>
    match hw.metadata.inst.network.addresses with
    | [] => .panic
    | a :: _ => .resp ⟨200, .text a.gateway, false⟩

/-- Whether any address of the list has the given family (the flag-setting
loop over `networkInfo` in the global `macHandler`). -/
def hasFamily (addrs : List NetworkAddress) (fam : Nat) : Bool :=
  addrs.any (fun a => a.addressFamily == fam)

/-- Source: `macHandler` (global-state version): the selector is compared against
`Metadata.Instance.ID`; on a match the handler fills the two-key map
`availableIP` from the address families and then iterates that map, writing
`fmt.Sprintln(key)` for every key whose value is true.  Go map iteration
order is unspecified, so the embedding takes the iteration order of the two
keys as the explicit argument `order`. -/
def macHandlerGlobal (o : FetchOutcome) (mac : String) (order : List String) : HttpResponse :=
  match getHardware o with
  | .error _ => ⟨404, .jsonNull, true⟩
  | .ok hw =>
    if mac ≠ hw.metadata.inst.id then ⟨204, .text "", false⟩
    else
      let addrs := hw.metadata.inst.network.addresses
      let availableIP : String → Bool := fun key =>
        (key == "ipv4" && hasFamily addrs 4) || (key == "ipv6" && hasFamily addrs 6)
      let written := order.filter availableIP
      if written = [] then ⟨204, .text "", false⟩
      else ⟨200, .text (String.join (written.map (fun k => k ++ "\n"))), false⟩

/-! ### EC2 schema (`ec2Filters` of the first unnamed file and
`filterMetadata`) -/

/-- Lexicographic (codepoint) order on strings, as jq `sort` compares
strings; total by Char trichotomy. -/
def charListLe : List Char → List Char → Bool
  | [], _ => true
  | _ :: _, [] => false
  | a :: as, b :: bs => if a < b then true else if b < a then false else charListLe as bs

/-- Insert into a sorted list (helper for `sortStrings`). -/
def insertSorted (x : String) : List String → List String
  | [] => [x]
  | y :: ys => if charListLe x.data y.data then x :: y :: ys else y :: insertSorted x ys

/-- jq `sort` on a list of strings (insertion sort; jq sorts stably by
codepoint order). -/
def sortStrings (l : List String) : List String := l.foldr insertSorted []

/-- Adjacent-pairs sortedness check in the same order. -/
def isSortedStr : List String → Bool
  | [] => true
  | [_] => true
  | a :: b :: t => charListLe a.data b.data && isSortedStr (b :: t)

/-- The static child names of the EC2 `/meta-data` listing filter, in the
order they are written in the jq array literal. -/
def ec2MetaDataStatic : List String :=
  ["instance-id", "hostname", "local-hostname", "iqn", "plan", "facility", "tags",
   "operating-system", "public-keys", "public-ipv4", "public-ipv6", "local-ipv4"]

/-- Evaluation of the `ec2Filters["/meta-data"]` jq program
`[...static...] + (if .metadata.instance.spot != null then ["spot"] else []
end) | sort | .[]` against a record: the conditional append happens before
the sort. -/
def ec2MetaDataChildren (hw : K8sHardware) : List String :=
  sortStrings (ec2MetaDataStatic ++ (if hw.metadata.inst.spot ≠ none then ["spot"] else []))

/-- Evaluation of `ec2Filters["/meta-data/spot/termination-time"]`, the jq
program `.metadata.instance.spot.termination_time`; jq field access on null
yields null, which `filterMetadata` skips, hence the `Option`. -/
def ec2SpotTerminationTime (hw : K8sHardware) : Option String :=
  hw.metadata.inst.spot.map (fun sp => sp.terminationTime)

/-- Status written by `EC2MetadataHandler` for each fetch outcome: lookup
failure is 404, export failure is 500; with exported bytes in hand the query
is processed (invalid path 404), and a decode failure inside
`filterMetadata` is only logged — the write of the nil response commits
status 200. -/
def ec2MetadataHandlerStatus (o : FetchOutcome) (queryValid : Bool) : Nat :=
  match o with
  | .lookupFailure => 404
  | .exportFailure => 500
  | .decodeFailure => if queryValid then 200 else 404
  | .success _ => if queryValid then 200 else 404

/-! ### String helpers matching the Go `strings` functions used by
`processHegelQuery` and `filterHegelMetadata` -/

/-- Source: `strings.TrimPrefix`. -/
def trimPrefixStr (s p : String) : String :=
  if p.data.isPrefixOf s.data then String.mk (s.data.drop p.data.length) else s

/-- Source: `strings.TrimRight(s, "/")`: drop every trailing slash. -/
def trimTrailingSlash (s : String) : String :=
  String.mk (((s.data.reverse).dropWhile (fun c => c = '/')).reverse)

/-- Substring test on char lists (helper for `hasSubstring`). -/
def subOccurs : List Char → List Char → Bool
  | [], p => p.isPrefixOf []
  | c :: t, p => p.isPrefixOf (c :: t) || subOccurs t p

/-- Source: `strings.Contains`. -/
def hasSubstring (s pat : String) : Bool := subOccurs s.data pat.data

/-- Chars after the first occurrence of `p`, if it occurs (helper for the
`strings.SplitAfter(..)[1]` index extraction). -/
def afterFirst : List Char → List Char → Option (List Char)
  | [], p => if p.isPrefixOf ([] : List Char) then some [] else none
  | c :: t, p =>
    if p.isPrefixOf (c :: t) then some ((c :: t).drop p.length) else afterFirst t p

/-- Chars up to and including the first occurrence of `p`, or the whole list
when `p` does not occur (the shape of a middle `strings.SplitAfter` chunk). -/
def upToIncl : List Char → List Char → List Char
  | [], p => if p.isPrefixOf ([] : List Char) then p else []
  | c :: t, p => if p.isPrefixOf (c :: t) then p else c :: upToIncl t p

/-- Source: `strings.SplitAfter(s, pat)[1]`: the chunk following the first
occurrence of `pat`, which extends up to and including the next occurrence
(or to the end).  Only called when `pat` occurs; `""` otherwise. -/
def splitAfterSecond (s pat : String) : String :=
  match afterFirst s.data pat.data with
  | none => ""
  | some rest => String.mk (upToIncl rest pat.data)

/-- Splitting on a single separator character, as `strings.Split` behaves for
the one-char separators `"/"` and `":"` used by the query code (structural,
so that concrete queries evaluate in the kernel). -/
def splitCharAux : List Char → Char → List Char → List String
  | [], _, acc => [String.mk acc.reverse]
  | c :: t, sep, acc =>
    if c = sep then String.mk acc.reverse :: splitCharAux t sep []
    else splitCharAux t sep (c :: acc)

/-- Source: `strings.Split(s, sep)` for a single-character separator. -/
def splitChar (s : String) (sep : Char) : List String := splitCharAux s.data sep []

/-- Source: `strings.Count(url, ":")`. -/
def countColons (s : String) : Nat := s.data.countP (fun c => c = ':')

/-- Source: `isMACAddress` of the first unnamed file: true iff the string contains
exactly five colon characters in total. -/
def isMACAddress (url : String) : Bool := countColons url == 5

/-! ### `processHegelQuery` -/

/-- The jq filter `processHegelQuery` returns, as a tagged value carrying the
data interpolated into the Go filter string (the exact strings are recovered
by `HegelFilter.render`). -/
inductive HegelFilter where
  | jsonRoot
  | sshIndex (idx : String)
  | diskIndex (idx : String)
  | macFamilies (mac : String)
  | macFamily (mac fam : String)
  | macLeafList
  | macIP (mac fam : String)
  | macNetmask (mac fam : String)
  | macDefault
  | staticFilter (f : String)
deriving Repr, DecidableEq

/-- The literal jq filter string each `HegelFilter` stands for, exactly as
`processHegelQuery` builds it. -/
def HegelFilter.render : HegelFilter → String
  | .jsonRoot => ".metadata.instance"
  | .sshIndex idx => ".metadata.instance.ssh_keys[" ++ idx ++ "]"
  | .diskIndex idx => ".metadata.disks[" ++ idx ++ "]"
  | .macFamilies mac =>
    "select(.metadata.instance.id == \"" ++ mac ++ "\") |"
      ++ ".metadata.instance.network.addresses[]? | .address_family"
  | .macFamily mac fam =>
    "select(.metadata.instance.id == \"" ++ mac ++ "\") |"
      ++ ".metadata.instance.network.addresses[]? | select(.address_family == " ++ fam ++ ")"
  | .macLeafList => "[\"ip\", \"netmask\"] | .[]"
  | .macIP mac fam =>
    "select(.metadata.instance.id == \"" ++ mac ++ "\") |"
      ++ ".metadata.instance.network.addresses[]? | select(.address_family == " ++ fam ++ ") |"
      ++ ".address"
  | .macNetmask mac fam =>
    "select(.metadata.instance.id == \"" ++ mac ++ "\") |"
      ++ ".metadata.instance.network.addresses[]? | select(.address_family == " ++ fam ++ ") |"
      ++ ".netmask"
  | .macDefault =>
    ".metadata.instance.network.addresses[]? | select(.address_family == 4 and .public == true) | .address"
  | .staticFilter f => f

/-- Result of `processHegelQuery`: a filter, one of its two error returns
(`invalid endpoint` from the 5-segment MAC case, `invalid metadata item` from
the static-table miss), or a Go runtime panic from `split_query[1]` when the
slice has fewer than two elements. -/
inductive HegelOutcome where
  | ok (f : HegelFilter)
  | invalidEndpoint
  | invalidItem
  | panic
deriving Repr, DecidableEq

/-- Whether the outcome can only arise from the MAC branch of
`processHegelQuery` (every constructor the branch can produce, the panic and
the `invalid endpoint` error included). -/
def HegelOutcome.viaMacBranch : HegelOutcome → Bool
  | .ok (.macFamilies _) => true
  | .ok (.macFamily _ _) => true
  | .ok .macLeafList => true
  | .ok (.macIP _ _) => true
  | .ok (.macNetmask _ _) => true
  | .ok .macDefault => true
  | .invalidEndpoint => true
  | .panic => true
  | _ => false

/-- The `hegelFilters` static table. -/
def hegelFiltersLookup (q : String) : Option String :=
  if q = "" then some "\"metadata\", \"userdata\""
  else if q = "/user-data" then some ".metadata.userdata"
  else if q = "/meta-data" then
    some "[\"hostname\", \"disks\", \"public-ipv4\", \"public-ipv6\", \"local-ipv4\", \"gateway\", \"netmask\"] | sort | .[]"
  else if q = "/meta-data/hostname" then some ".metadata.instance.hostname"
  else if q = "/meta-data/disks" then some ".metadata.disks | length"
  else if q = "/meta-data/public-ipv4" then
    some ".metadata.instance.network.addresses[]? | select(.address_family == 4 and .public == true) | .address"
  else if q = "/meta-data/public-ipv6" then
    some ".metadata.instance.network.addresses[]? | select(.address_family == 6 and .public == true) | .address"
  else if q = "/meta-data/local-ipv4" then
    some ".metadata.instance.network.addresses[]? | select(.address_family == 4 and .public == false) | .address"
  else if q = "/meta-data/gateway" then some ".metadata.instance.network.addresses[]? | .gateway"
  else if q = "/meta-data/netmask" then some ".metadata.instance.network.addresses[]? | .netmask"
  else if q = "/meta-data/ssh-public-keys" then some ".metadata.instance.ssh_keys | length"
  else none

/-- The `switch len(split_query)` of the MAC branch of `processHegelQuery`;
`mac := split_query[1]` is read before the switch, a Go index panic when the
slice has fewer than two elements, and the fallthrough below the switch (six
or more segments) returns the public-ipv4 filter. -/
def macBranchSwitch : List String → HegelOutcome
  | [] => .panic
  | [_] => .panic
  | [_, mac] => .ok (.macFamilies mac)
  | [_, mac, seg2] => .ok (.macFamily mac (trimPrefixStr seg2 "ipv"))
  | [_, _, _, _] => .ok .macLeafList
  | [_, mac, seg2, _, leaf] =>
    if leaf = "ip" then .ok (.macIP mac (trimPrefixStr seg2 "ipv"))
    else if leaf = "netmask" then .ok (.macNetmask mac (trimPrefixStr seg2 "ipv"))
    else .invalidEndpoint
  | _ => .ok .macDefault

/-- The MAC branch applied to `split_query` (`strings.Split(query, "/")[1:]`). -/
def macBranchResult (query : String) : HegelOutcome :=
  macBranchSwitch ((splitChar query '/').drop 1)

/-- Source: `processHegelQuery` of the first unnamed file: trims the `/v0` base and
trailing slashes, then tries in order the JSON-root case, the
`ssh-public-keys/` and `disks/` substring cases, the MAC case (guarded only
by `isMACAddress`, the five-colon count over the whole query), and finally
the static table. -/
def processHegelQuery (url : String) (jsonRequest : Bool) : HegelOutcome :=
  let query := trimTrailingSlash (trimPrefixStr url "/v0")
  if query = "/meta-data" ∧ jsonRequest then .ok .jsonRoot
  else if hasSubstring query "ssh-public-keys/" then
    .ok (.sshIndex (splitAfterSecond query "ssh-public-keys/"))
  else if hasSubstring query "disks/" then
    .ok (.diskIndex (splitAfterSecond query "disks/"))
  else if isMACAddress query then macBranchResult query
  else
    match hegelFiltersLookup query with
    | some f => .ok (.staticFilter f)
    | none => .invalidItem

/-- Spec-side notion of a MAC-shaped segment, following the spec's words:
six colon-separated hex octets (exactly five colons).  Used to state claim
C4 against the code's `isMACAddress`. -/
def isMACSegmentSpec (seg : String) : Bool :=
  let parts := splitChar seg ':'
  parts.length == 6 && parts.all (fun p =>
    p.length == 2 && p.data.all (fun c =>
      c.isDigit || ('a' ≤ c && c ≤ 'f') || ('A' ≤ c && c ≤ 'F')))

/-! ### The family-listing path of `filterHegelMetadata`

For a matched `/v0/meta-data/<mac>` request the jq filter
(`HegelFilter.macFamilies`) emits the `address_family` number of every
address when the instance id equals the selector; `filterHegelMetadata`'s
`float64` case (route length 2) writes `"ipv" + fmt.Sprint(v)` for each
emitted family not yet in `floatSet`, then marks it seen. -/

/-- The `floatSet` deduplication loop of `filterHegelMetadata` (float64
case, route length 2), over the emitted family numbers. -/
def familyDedupLines (fams : List Nat) : List String :=
  (fams.foldl
    (fun (acc : List String × List Nat) f =>
      if f ∈ acc.2 then acc
      else (acc.1 ++ ["ipv" ++ toString f], acc.2 ++ [f]))
    ([], [])).1

/-- Lines of the family listing for `/v0/meta-data/<mac>`: the
`macFamilies` jq filter followed by the dedup loop. -/
def hegelFamilyListing (hw : K8sHardware) (mac : String) : List String :=
  if hw.metadata.inst.id = mac then
    familyDedupLines (hw.metadata.inst.network.addresses.map (fun a => a.addressFamily))
  else []

/-! ### Helper lemmas -/

theorem getHardware_ok_iff {o : FetchOutcome} {hw : K8sHardware} :
    getHardware o = .ok hw ↔ o = .success hw := by
  cases o <;> simp [getHardware]

theorem lastMatch_eq_none {l : List K8sNetworkInterface} {mac : String}
    (h : ∀ itf ∈ l, itf.mac ≠ mac) : lastMatch l mac = none := by
  induction l with
  | nil => rfl
  | cons x t ih =>
    have hx : ¬ x.mac = mac := h x (by simp)
    have ht : ∀ itf ∈ t, itf.mac ≠ mac := fun itf hm => h itf (by simp [hm])
    unfold lastMatch at *
    simpa [List.foldl_cons, if_neg hx] using ih ht

theorem lastMatch_foldl_some (l : List K8sNetworkInterface) (mac : String)
    (x : K8sNetworkInterface) :
    l.foldl (fun acc itf => if itf.mac = mac then some itf else acc) (some x) ≠ none := by
  induction l generalizing x with
  | nil => simp
  | cons y t ih =>
    simp only [List.foldl_cons]
    by_cases hy : y.mac = mac
    · simpa [hy] using ih y
    · simpa [hy] using ih x

theorem lastMatch_ne_none {l : List K8sNetworkInterface} {mac : String}
    (h : ∃ itf ∈ l, itf.mac = mac) : lastMatch l mac ≠ none := by
  induction l with
  | nil => simp at h
  | cons x t ih =>
    unfold lastMatch
    simp only [List.foldl_cons]
    by_cases hx : x.mac = mac
    · simpa [hx] using lastMatch_foldl_some t mac x
    · rcases h with ⟨itf, hmem, hmac⟩
      rcases List.mem_cons.mp hmem with rfl | hmem'
      · exact absurd hmac hx
      · simpa [hx] using ih ⟨itf, hmem', hmac⟩

theorem validInterfaces_eq_nil {hw : K8sHardware} {mac : String}
    (h : ∀ itf ∈ hw.metadata.interfaces, itf.mac ≠ mac) :
    validInterfaces hw mac = [] := by
  refine List.filter_eq_nil_iff.mpr ?_
  intro a ha
  simpa using h a ha

/-! ### Sample records used for concrete witnesses and counterexamples -/

/-- A record with three disks and a single interface, used for the C1 and C2
witnesses. -/
def recThreeDisks : K8sHardware :=
  ⟨⟨some "echo hi",
    ⟨"aa:bb:cc:dd:ee:ff", "host-1", [⟨"/dev/sda"⟩, ⟨"/dev/sdb"⟩, ⟨"/dev/sdc"⟩],
      ["ssh-rsa AAAA"], ⟨[⟨4, "10.0.0.2", "255.255.255.0", "10.0.0.1", true⟩]⟩, none⟩,
    "10.0.0.1",
    [⟨"aa:bb:cc:dd:ee:ff", 4, "10.0.0.2", "255.255.255.0"⟩]⟩⟩

/-- A record with one disk, used for the C1 counterexample. -/
def recOneDisk : K8sHardware :=
  ⟨⟨none, ⟨"id-1", "host-1", [⟨"/dev/sda"⟩], [], ⟨[]⟩, none⟩, "", []⟩⟩

/-! ### Claims -/

/-- C1, counterexample: with one disk, requesting index 5 (numeric and out of
range) yields HTTP 400 — not the empty/204 outcome the claim asserts. -/
theorem c1_out_of_range_counterexample :
    diskIndexHandler (.success recOneDisk) "5" = ⟨400, .jsonNull, true⟩ ∧
    (diskIndexHandler (.success recOneDisk) "5").status ≠ 204 := by
  constructor
  · decide
  · decide

/-- C1 (amended): with exactly 3 disks the current-schema `/meta-data/disks`
listing is HTTP 200 with body lines `0`, `1`, `2`; a numeric index that is
negative or at least the disk count yields HTTP 400 (the same Bad Request
as a non-numeric index), not an empty/204 outcome; a non-numeric index
yields HTTP 400. -/
theorem c1_disks_amended (hw : K8sHardware) :
    (hw.metadata.inst.disks.length = 3 →
      diskHandler (.success hw) = ⟨200, .text "0\n1\n2\n", false⟩) ∧
    (∀ s i, atoi? s = some i → (i < 0 ∨ (hw.metadata.inst.disks.length : Int) ≤ i) →
      diskIndexHandler (.success hw) s = ⟨400, .jsonNull, true⟩) ∧
    (∀ s, atoi? s = none → diskIndexHandler (.success hw) s = ⟨400, .jsonNull, true⟩) := by
  refine ⟨?_, ?_, ?_⟩
  · intro h3
    simp [diskHandler, getHardware, h3]
    decide
  · intro s i hs hi
    simp only [diskIndexHandler, getHardware, hs]
    rw [if_neg]
    rcases hi with hneg | hbig
    · rintro ⟨h0, _⟩; omega
    · rintro ⟨_, hlt⟩; omega
  · intro s hs
    simp [diskIndexHandler, getHardware, hs]

/-- C1 witness: the amended claim at the three-disk record, index `5` and
index `x`. -/
theorem c1_disks_amended_witness :
    diskHandler (.success recThreeDisks) = ⟨200, .text "0\n1\n2\n", false⟩ ∧
    diskIndexHandler (.success recThreeDisks) "5" = ⟨400, .jsonNull, true⟩ ∧
    diskIndexHandler (.success recThreeDisks) "x" = ⟨400, .jsonNull, true⟩ :=
  ⟨(c1_disks_amended recThreeDisks).1 (by decide),
   (c1_disks_amended recThreeDisks).2.1 "5" 5 (by decide) (by decide),
   (c1_disks_amended recThreeDisks).2.2 "x" (by decide)⟩

/-- C2: whenever the record resolves but the MAC selector matches none of its
interfaces, every MAC-qualified injected handler returns 204 with an empty
body, a status distinct from the 404 produced by a failed lookup. -/
theorem c2_mac_mismatch_204 (o : FetchOutcome) (hw : K8sHardware) (mac idx : String)
    (hok : getHardware o = .ok hw)
    (hmiss : ∀ itf ∈ hw.metadata.interfaces, itf.mac ≠ mac) :
    macHandler o mac = ⟨204, .text "", false⟩ ∧
    ipv4Handler o mac = ⟨204, .text "", false⟩ ∧
    ipv4IndexHandler o mac = ⟨204, .text "", false⟩ ∧
    ipv4IPHandler o mac idx = ⟨204, .text "", false⟩ ∧
    ipv4NetmaskHandler o mac idx = ⟨204, .text "", false⟩ ∧
    ipv6Handler o mac = ⟨204, .text "", false⟩ ∧
    ipv6IndexHandler o mac = ⟨204, .text "", false⟩ ∧
    ipv6IPHandler o mac idx = ⟨204, .text "", false⟩ ∧
    ipv6NetmaskHandler o mac idx = ⟨204, .text "", false⟩ ∧
    macHandler .lookupFailure mac = ⟨404, .jsonNull, true⟩ := by
  obtain rfl : o = .success hw := getHardware_ok_iff.mp hok
  have hlm := lastMatch_eq_none hmiss
  have hvi := validInterfaces_eq_nil hmiss
  refine ⟨?_, ?_, ?_, ?_, ?_, ?_, ?_, ?_, ?_, rfl⟩ <;>
    simp [macHandler, ipv4Handler, ipv4IndexHandler, ipv4IPHandler, ipv4NetmaskHandler,
      ipv6Handler, ipv6IndexHandler, ipv6IPHandler, ipv6NetmaskHandler,
      getHardware, hlm, hvi]

/-- C3: for a matched MAC selector, an address list with two family-4
addresses followed by one family-6 address produces exactly the `ipv4` line
followed by the `ipv6` line — each family once, in first-seen order
(the `floatSet` deduplication of `filterHegelMetadata`). -/
theorem c3_family_dedup (hw : K8sHardware) (mac : String) (a1 a2 a3 : NetworkAddress)
    (hid : hw.metadata.inst.id = mac)
    (haddrs : hw.metadata.inst.network.addresses = [a1, a2, a3])
    (h1 : a1.addressFamily = 4) (h2 : a2.addressFamily = 4) (h3 : a3.addressFamily = 6) :
    hegelFamilyListing hw mac = ["ipv4", "ipv6"] := by
  simp only [hegelFamilyListing, hid, if_pos rfl, haddrs, List.map_cons, List.map_nil,
    h1, h2, h3]
  decide

/-- C3 witness: the family listing at a concrete matched record with
addresses of families 4, 4, 6. -/
theorem c3_family_dedup_witness :
    hegelFamilyListing
      ⟨⟨none,
        ⟨"aa:bb:cc:dd:ee:ff", "h", [], [],
          ⟨[⟨4, "10.0.0.2", "m", "g", true⟩, ⟨4, "10.0.0.3", "m", "g", false⟩,
            ⟨6, "fe80::1", "m", "g", true⟩]⟩, none⟩, "", []⟩⟩
      "aa:bb:cc:dd:ee:ff" = ["ipv4", "ipv6"] :=
  c3_family_dedup _ _ _ _ _ rfl rfl rfl rfl rfl

/-- C4, counterexample: `isMACAddress` merely counts colons in the whole
query, so `/v0/meta-data/a:b:c:d/e:f:g` — whose colons are spread across two
segments, neither of which is six hex octets — is consumed by the MAC branch
of `processHegelQuery`. -/
theorem c4_mac_shape_counterexample :
    processHegelQuery "/v0/meta-data/a:b:c:d/e:f:g" false
        = .ok (.macFamily "a:b:c:d" "e:f:g") ∧
    (processHegelQuery "/v0/meta-data/a:b:c:d/e:f:g" false).viaMacBranch = true ∧
    (splitChar "/meta-data/a:b:c:d/e:f:g" '/').all
      (fun seg => !isMACSegmentSpec seg) = true := by
  refine ⟨by decide, by decide, by decide⟩

theorem macBranchSwitch_viaMacBranch (l : List String) :
    (macBranchSwitch l).viaMacBranch = true := by
  rcases l with _ | ⟨s0, _ | ⟨s1, _ | ⟨s2, _ | ⟨s3, _ | ⟨s4, _ | ⟨s5, rest⟩⟩⟩⟩⟩⟩
  · rfl
  · rfl
  · rfl
  · rfl
  · rfl
  · show (macBranchSwitch [s0, s1, s2, s3, s4]).viaMacBranch = true
    unfold macBranchSwitch
    by_cases h1 : s4 = "ip"
    · simp [h1, HegelOutcome.viaMacBranch]
    · by_cases h2 : s4 = "netmask" <;> simp [h1, h2, HegelOutcome.viaMacBranch]
  · rfl

theorem macBranchResult_viaMacBranch (q : String) :
    (macBranchResult q).viaMacBranch = true :=
  macBranchSwitch_viaMacBranch _

/-- C4 (amended): once the JSON-root, `ssh-public-keys/` and `disks/` cases
decline, a request is routed to MAC resolution iff the trimmed query contains
exactly five colon characters anywhere in the path; the consumed segment is
not validated as six colon-separated hex octets, so colons spread over
several segments or non-hex selectors also trigger MAC resolution. -/
theorem c4_mac_branch_amended (url : String) (jsonRequest : Bool)
    (hjson : ¬(trimTrailingSlash (trimPrefixStr url "/v0") = "/meta-data" ∧ jsonRequest = true))
    (hssh : hasSubstring (trimTrailingSlash (trimPrefixStr url "/v0")) "ssh-public-keys/" = false)
    (hdisks : hasSubstring (trimTrailingSlash (trimPrefixStr url "/v0")) "disks/" = false) :
    (processHegelQuery url jsonRequest).viaMacBranch = true ↔
      countColons (trimTrailingSlash (trimPrefixStr url "/v0")) = 5 := by
  unfold processHegelQuery
  simp only []
  rw [if_neg (by simpa using hjson), if_neg (by simp [hssh]), if_neg (by simp [hdisks])]
  by_cases hm : isMACAddress (trimTrailingSlash (trimPrefixStr url "/v0"))
  · rw [if_pos hm]
    simp only [isMACAddress, Nat.beq_eq_true_eq] at hm
    simp [macBranchResult_viaMacBranch, hm]
  · rw [if_neg hm]
    simp only [isMACAddress, Nat.beq_eq_true_eq] at hm
    rcases hl : hegelFiltersLookup (trimTrailingSlash (trimPrefixStr url "/v0")) with _ | f <;>
      simp [hl, HegelOutcome.viaMacBranch, hm]

/-- C4 witness: the amended characterization at a genuine MAC query and at a
plain static query. -/
theorem c4_mac_branch_amended_witness :
    ((processHegelQuery "/v0/meta-data/aa:bb:cc:dd:ee:ff" false).viaMacBranch = true ↔
      countColons "/meta-data/aa:bb:cc:dd:ee:ff" = 5) ∧
    ((processHegelQuery "/v0/meta-data/hostname" false).viaMacBranch = true ↔
      countColons "/meta-data/hostname" = 5) := by
  constructor
  · have h := c4_mac_branch_amended "/v0/meta-data/aa:bb:cc:dd:ee:ff" false
      (by decide) (by decide) (by decide)
    simpa using h
  · have h := c4_mac_branch_amended "/v0/meta-data/hostname" false
      (by decide) (by decide) (by decide)
    simpa using h

/-- C5, counterexample: in the v0 family a decode failure of the exported
bytes surfaces as the same 404 as a lookup failure, not as a 500-class
status. -/
theorem c5_decode_status_counterexample :
    v0Dispatch .hostname [] .decodeFailure = ⟨404, .jsonNull, true⟩ ∧
    v0Dispatch .hostname [] .lookupFailure = ⟨404, .jsonNull, true⟩ ∧
    (v0Dispatch .hostname [] .decodeFailure).status ≠ 500 := by
  exact ⟨rfl, rfl, by decide⟩

/-- C5 (amended): a lookup failure yields 404, but in the v0 handlers a
decode failure yields the same 404 rather than a distinct 500-class status;
only the EC2 handler's export-stage failure yields 500 (its lookup failure
is 404, and a decode failure inside its filter is only logged, committing
status 200). -/
theorem c5_failure_statuses_amended :
    (∀ rt accept, rt ≠ V0Route.metaRoot →
      (v0Dispatch rt accept .lookupFailure).status = 404 ∧
      (v0Dispatch rt accept .decodeFailure).status = 404) ∧
    (metadataHandler .lookupFailure ["application/json"]).status = 404 ∧
    (metadataHandler .decodeFailure ["application/json"]).status = 404 ∧
    (∀ qv, ec2MetadataHandlerStatus .lookupFailure qv = 404 ∧
      ec2MetadataHandlerStatus .exportFailure qv = 500) ∧
    ec2MetadataHandlerStatus .decodeFailure true = 200 := by
  refine ⟨?_, rfl, rfl, ?_, rfl⟩
  · intro rt accept h
    cases rt <;> first | exact absurd rfl h | exact ⟨rfl, rfl⟩
  · intro qv
    exact ⟨rfl, rfl⟩

/-- C5 witness: the amended statuses at the disks route and at a valid EC2
query. -/
theorem c5_failure_statuses_amended_witness :
    (v0Dispatch .disks [] .lookupFailure).status = 404 ∧
    (v0Dispatch .disks [] .decodeFailure).status = 404 ∧
    ec2MetadataHandlerStatus .lookupFailure true = 404 ∧
    ec2MetadataHandlerStatus .exportFailure true = 500 :=
  ⟨(c5_failure_statuses_amended.1 .disks [] (by decide)).1,
   (c5_failure_statuses_amended.1 .disks [] (by decide)).2,
   (c5_failure_statuses_amended.2.2.2.1 true).1,
   (c5_failure_statuses_amended.2.2.2.1 true).2⟩

/-- A record whose addresses carry both family 4 and family 6, matched by its
own instance id (for C6). -/
def recBothFams : K8sHardware :=
  ⟨⟨none,
    ⟨"aa:bb:cc:dd:ee:ff", "h", [], [],
      ⟨[⟨4, "10.0.0.2", "m", "g", true⟩, ⟨6, "fe80::1", "m", "g", true⟩]⟩, none⟩,
    "", []⟩⟩

/-- A record with only family-4 addresses (for the C6 witness). -/
def recOnlyV4 : K8sHardware :=
  ⟨⟨none, ⟨"m4", "h", [], [], ⟨[⟨4, "10.0.0.2", "m", "g", true⟩]⟩, none⟩, "", []⟩⟩

/-- A record carrying spot info (for the C7 witness). -/
def recSpot : K8sHardware :=
  ⟨⟨none, ⟨"id", "h", [], [], ⟨[]⟩, some ⟨"2030-01-01T00:00:00Z"⟩⟩, "", []⟩⟩

/-- A record whose first-address gateway differs from its top-level metadata
gateway, with an interface MAC different from the instance id (for C9). -/
def recGwMismatch : K8sHardware :=
  ⟨⟨none,
    ⟨"idZ", "h", [], [], ⟨[⟨4, "10.0.0.2", "255.255.255.0", "192.168.0.1", true⟩]⟩, none⟩,
    "10.0.0.1",
    [⟨"aa:bb:cc:dd:ee:ff", 4, "10.0.0.2", "255.255.255.0"⟩]⟩⟩

/-- A successfully resolvable record whose network address list is empty
(for C10). -/
def recNoAddresses : K8sHardware :=
  ⟨⟨none, ⟨"id", "h", [], [], ⟨[]⟩, none⟩, "gw", []⟩⟩

/-- C6, counterexample: with both families present, the global-state
macHandler's body follows the iteration order of the `availableIP` map — the
two possible orders of its two keys yield different bodies, so repeated
evaluations are not guaranteed identical output. -/
theorem c6_map_order_counterexample :
    macHandlerGlobal (.success recBothFams) "aa:bb:cc:dd:ee:ff" ["ipv4", "ipv6"]
        = ⟨200, .text "ipv4\nipv6\n", false⟩ ∧
    macHandlerGlobal (.success recBothFams) "aa:bb:cc:dd:ee:ff" ["ipv6", "ipv4"]
        = ⟨200, .text "ipv6\nipv4\n", false⟩ := by
  exact ⟨by decide, by decide⟩

/-- C6 (amended): every embedded handler except the global-state macHandler
takes no iteration-order input, so its output is a function of record, path
and headers; the global macHandler consumes the iteration order of its
two-key availability map, and its response is order-independent exactly when
at most one address family is present among the record's addresses. -/
theorem c6_determinism_amended (o : FetchOutcome) (mac : String) (hw : K8sHardware)
    (hok : getHardware o = .ok hw) (o1 o2 : List String)
    (h1 : o1 = ["ipv4", "ipv6"] ∨ o1 = ["ipv6", "ipv4"])
    (h2 : o2 = ["ipv4", "ipv6"] ∨ o2 = ["ipv6", "ipv4"])
    (hnot : ¬(hasFamily hw.metadata.inst.network.addresses 4 = true ∧
        hasFamily hw.metadata.inst.network.addresses 6 = true)) :
    macHandlerGlobal o mac o1 = macHandlerGlobal o mac o2 := by
  obtain rfl : o = .success hw := getHardware_ok_iff.mp hok
  cases h4 : hasFamily hw.metadata.inst.network.addresses 4 <;>
    cases h6 : hasFamily hw.metadata.inst.network.addresses 6
  · rcases h1 with rfl | rfl <;> rcases h2 with rfl | rfl <;>
      simp [macHandlerGlobal, getHardware, h4, h6]
  · rcases h1 with rfl | rfl <;> rcases h2 with rfl | rfl <;>
      simp [macHandlerGlobal, getHardware, h4, h6]
  · rcases h1 with rfl | rfl <;> rcases h2 with rfl | rfl <;>
      simp [macHandlerGlobal, getHardware, h4, h6]
  · exact absurd ⟨h4, h6⟩ hnot

/-- C6 witness: the amended order-independence at a record with only
family 4 present, over the two orders of the map keys. -/
theorem c6_determinism_amended_witness :
    macHandlerGlobal (.success recOnlyV4) "m4" ["ipv4", "ipv6"]
      = macHandlerGlobal (.success recOnlyV4) "m4" ["ipv6", "ipv4"] :=
  c6_determinism_amended (.success recOnlyV4) "m4" recOnlyV4 rfl _ _
    (Or.inl rfl) (Or.inr rfl) (by decide)

/-- C7: the EC2 `/meta-data` listing contains the child `spot` iff the
record's spot info is non-null; the listing is lexically sorted in both cases
(so the existence predicate is applied before the sort, `spot` landing in
sorted position); and the `/meta-data/spot/termination-time` leaf evaluates
to the record's spot termination time. -/
theorem c7_spot_conditional (hw : K8sHardware) :
    ("spot" ∈ ec2MetaDataChildren hw ↔ hw.metadata.inst.spot ≠ none) ∧
    isSortedStr (ec2MetaDataChildren hw) = true ∧
    (∀ sp, hw.metadata.inst.spot = some sp →
      ec2SpotTerminationTime hw = some sp.terminationTime) := by
  rcases hsp : hw.metadata.inst.spot with _ | sp0
  · have hch : ec2MetaDataChildren hw =
        ["facility", "hostname", "instance-id", "iqn", "local-hostname", "local-ipv4",
         "operating-system", "plan", "public-ipv4", "public-ipv6", "public-keys", "tags"] := by
      simp only [ec2MetaDataChildren, hsp]
      rw [if_neg (by simp)]
      decide
    refine ⟨?_, ?_, ?_⟩
    · rw [hch]
      simp [hsp]
    · rw [hch]
      decide
    · intro sp h
      exact Option.noConfusion h
  · have hch : ec2MetaDataChildren hw =
        ["facility", "hostname", "instance-id", "iqn", "local-hostname", "local-ipv4",
         "operating-system", "plan", "public-ipv4", "public-ipv6", "public-keys", "spot",
         "tags"] := by
      simp only [ec2MetaDataChildren, hsp]
      rw [if_pos (by simp)]
      decide
    refine ⟨?_, ?_, ?_⟩
    · rw [hch]
      simp [hsp]
    · rw [hch]
      decide
    · intro sp h
      injection h with hs
      subst hs
      simp [ec2SpotTerminationTime, hsp]

/-- C7 witness: the conditional listing and the termination-time leaf at a
record with spot info. -/
theorem c7_spot_conditional_witness :
    ("spot" ∈ ec2MetaDataChildren recSpot ↔ recSpot.metadata.inst.spot ≠ none) ∧
    ec2SpotTerminationTime recSpot = some "2030-01-01T00:00:00Z" :=
  ⟨(c7_spot_conditional recSpot).1,
   (c7_spot_conditional recSpot).2.2 ⟨"2030-01-01T00:00:00Z"⟩ rfl⟩

/-- The omitempty key list for a record's aggregated root-metadata object. -/
def metadataJSONKeysOf (hw : K8sHardware) : List String :=
  metadataJSONKeys hw.metadata.interfaces hw.metadata.inst.disks hw.metadata.inst.sshKeys
    hw.metadata.inst.hostname hw.metadata.gateway

theorem mem_ite_singleton (c : Prop) [Decidable c] (x y : String) :
    (x ∈ if c then [y] else []) ↔ (x = y ∧ c) := by
  by_cases h : c <;> simp [h]

/-- C8: with an `Accept` value equal to `application/json` and a resolved
record, the root meta-data response is a 200 JSON object aggregating
interfaces, disks, ssh_keys, hostname and gateway, each omitempty key present
iff its field is nonempty, with JSON content type; without that value the
response is the fixed plaintext child-name listing; and every other v0
route's response is independent of the `Accept` values. -/
theorem c8_content_negotiation (o : FetchOutcome) (hw : K8sHardware) (accept : List String) :
    (accept.contains "application/json" = true → getHardware o = .ok hw →
      metadataHandler o accept
        = ⟨200, .jsonMeta hw.metadata.interfaces hw.metadata.inst.disks
            hw.metadata.inst.sshKeys hw.metadata.inst.hostname hw.metadata.gateway, true⟩ ∧
      ("interfaces" ∈ metadataJSONKeysOf hw ↔ hw.metadata.interfaces ≠ []) ∧
      ("disks" ∈ metadataJSONKeysOf hw ↔ hw.metadata.inst.disks ≠ []) ∧
      ("ssh_keys" ∈ metadataJSONKeysOf hw ↔ hw.metadata.inst.sshKeys ≠ []) ∧
      ("hostname" ∈ metadataJSONKeysOf hw ↔ hw.metadata.inst.hostname ≠ "") ∧
      ("gateway" ∈ metadataJSONKeysOf hw ↔ hw.metadata.gateway ≠ "")) ∧
    (accept.contains "application/json" = false →
      metadataHandler o accept
        = ⟨200, .text "disks\nssh-public-keys\ngateway\nhostname\n:mac\n", false⟩) ∧
    (∀ rt, rt ≠ V0Route.metaRoot → ∀ accept2,
      v0Dispatch rt accept o = v0Dispatch rt accept2 o) := by
  refine ⟨?_, ?_, ?_⟩
  · intro hacc hok
    refine ⟨?_, ?_, ?_, ?_, ?_, ?_⟩
    · unfold metadataHandler
      rw [hacc, hok]
      simp
    all_goals
      simp [metadataJSONKeysOf, metadataJSONKeys, mem_ite_singleton, List.mem_append]
  · intro hacc
    unfold metadataHandler
    rw [hacc]
    simp
  · intro rt hrt accept2
    cases rt <;> first | exact absurd rfl hrt | rfl

/-- C8 witness: the negotiation at the sample record with and without the
JSON `Accept` value. -/
theorem c8_content_negotiation_witness :
    metadataHandler (.success recThreeDisks) ["application/json"]
      = ⟨200, .jsonMeta recThreeDisks.metadata.interfaces recThreeDisks.metadata.inst.disks
          recThreeDisks.metadata.inst.sshKeys recThreeDisks.metadata.inst.hostname
          recThreeDisks.metadata.gateway, true⟩ ∧
    metadataHandler (.success recThreeDisks) []
      = ⟨200, .text "disks\nssh-public-keys\ngateway\nhostname\n:mac\n", false⟩ :=
  ⟨((c8_content_negotiation (.success recThreeDisks) recThreeDisks
      ["application/json"]).1 rfl rfl).1,
   (c8_content_negotiation (.success recThreeDisks) recThreeDisks []).2.1 rfl⟩

/-- C9, counterexample: the two co-present gatewayHandler versions disagree —
the global one returns the first address's gateway, the injected one the
top-level metadata gateway. -/
theorem c9_two_impls_counterexample :
    gatewayHandlerGlobal (.success recGwMismatch) = .resp ⟨200, .text "192.168.0.1", false⟩ ∧
    gatewayHandler (.success recGwMismatch) = ⟨200, .text "10.0.0.1", false⟩ ∧
    gatewayHandlerGlobal (.success recGwMismatch)
      ≠ .resp (gatewayHandler (.success recGwMismatch)) := by
  exact ⟨by decide, by decide, by decide⟩

/-- C9 (amended): the two implementations are not equivalent.  On success
with a nonempty address list both gateway versions return 200, but the
global one's body is the first address's gateway while the injected one's is
the top-level metadata gateway — equal responses exactly when those fields
coincide.  The macHandler versions use different match criteria: when the
selector matches an interface MAC but not the instance id, the global
version returns 204 while the injected version returns the fixed 200
listing. -/
theorem c9_two_impls_amended (hw : K8sHardware) (a : NetworkAddress)
    (rest : List NetworkAddress)
    (haddr : hw.metadata.inst.network.addresses = a :: rest) :
    gatewayHandlerGlobal (.success hw) = .resp ⟨200, .text a.gateway, false⟩ ∧
    gatewayHandler (.success hw) = ⟨200, .text hw.metadata.gateway, false⟩ ∧
    (gatewayHandlerGlobal (.success hw) = .resp (gatewayHandler (.success hw)) ↔
      a.gateway = hw.metadata.gateway) ∧
    (∀ mac order, mac ≠ hw.metadata.inst.id →
      (∃ itf ∈ hw.metadata.interfaces, itf.mac = mac) →
      macHandlerGlobal (.success hw) mac order = ⟨204, .text "", false⟩ ∧
      macHandler (.success hw) mac = ⟨200, .text "ipv4\nipv6\n", false⟩) := by
  have hg : gatewayHandlerGlobal (.success hw) = .resp ⟨200, .text a.gateway, false⟩ := by
    simp [gatewayHandlerGlobal, getHardware, haddr]
  refine ⟨hg, rfl, ?_, ?_⟩
  · rw [hg]
    show (RunResult.resp ⟨200, .text a.gateway, false⟩
        = .resp ⟨200, .text hw.metadata.gateway, false⟩) ↔ _
    constructor
    · intro h
      injection h with h'
      have hb := congrArg HttpResponse.body h'
      simpa using hb
    · intro h
      rw [h]
  · intro mac order hne hex
    constructor
    · simp only [macHandlerGlobal, getHardware]
      rw [if_pos hne]
    · have h := lastMatch_ne_none hex
      rcases hlm : lastMatch hw.metadata.interfaces mac with _ | itf
      · exact absurd hlm h
      · simp [macHandler, getHardware, hlm]

/-- C9 witness: the amended statement at the mismatching sample record, with
the selector that matches the interface but not the instance id. -/
theorem c9_two_impls_amended_witness :
    gatewayHandlerGlobal (.success recGwMismatch) = .resp ⟨200, .text "192.168.0.1", false⟩ ∧
    macHandlerGlobal (.success recGwMismatch) "aa:bb:cc:dd:ee:ff" ["ipv4", "ipv6"]
      = ⟨204, .text "", false⟩ ∧
    macHandler (.success recGwMismatch) "aa:bb:cc:dd:ee:ff" = ⟨200, .text "ipv4\nipv6\n", false⟩ :=
  ⟨(c9_two_impls_amended recGwMismatch _ _ rfl).1,
   ((c9_two_impls_amended recGwMismatch _ _ rfl).2.2.2 "aa:bb:cc:dd:ee:ff" ["ipv4", "ipv6"]
      (by decide) ⟨⟨"aa:bb:cc:dd:ee:ff", 4, "10.0.0.2", "255.255.255.0"⟩, by decide⟩).1,
   ((c9_two_impls_amended recGwMismatch _ _ rfl).2.2.2 "aa:bb:cc:dd:ee:ff" ["ipv4", "ipv6"]
      (by decide) ⟨⟨"aa:bb:cc:dd:ee:ff", 4, "10.0.0.2", "255.255.255.0"⟩, by decide⟩).2⟩

/-- C10: on a successfully fetched record whose network address list is
empty, the global-state gatewayHandler's unchecked `Addresses[0]` read is out
of bounds — the run ends in the Go index-out-of-range panic rather than a
200 response with a first-address gateway (the source line carries the
author's own `//! err check` marker). -/
theorem c10_gateway_empty_addresses_panics :
    gatewayHandlerGlobal (.success recNoAddresses) = .panic := by
  decide

/-- C2 witness: the mismatching selector `de:ad:be:ef:00:01` against the
sample record. -/
theorem c2_mac_mismatch_204_witness :
    macHandler (.success recThreeDisks) "de:ad:be:ef:00:01" = ⟨204, .text "", false⟩ ∧
    ipv4Handler (.success recThreeDisks) "de:ad:be:ef:00:01" = ⟨204, .text "", false⟩ :=
  ⟨(c2_mac_mismatch_204 (.success recThreeDisks) recThreeDisks "de:ad:be:ef:00:01" "0"
      rfl (by decide)).1,
   (c2_mac_mismatch_204 (.success recThreeDisks) recThreeDisks "de:ad:be:ef:00:01" "0"
      rfl (by decide)).2.1⟩

end Hegel
